import Mathlib

/-!
Verification of the JAX scalar-dispatch layer of
`pytensor/link/jax/dispatch/scalar.py`.

The Python functions are shallowly embedded: rank-0 numeric values are
modelled by `ℚ` (exact arithmetic) or `ℤ` (integer operators), fallible
calls return `Option`/`Except`, and the real-analytic piecewise
implementations (`Softplus`, `Log1mexp`, `Iv`) are modelled over `ℝ`.
-/

/-- Embeds `check_if_inputs_scalars(node)`: each input contributes its
declared `type.ndim`, which in the Python source may be a non-integer
(the `TypeError` branch sets the flag to `False`); we model a declared
ndim as `Option ℕ`, `none` standing for a value whose comparison with
`0` raises.  The result is `True` iff no input has positive or
non-comparable ndim. -/
def check_if_inputs_scalars (ndims : List (Option ℕ)) : Bool :=
  ndims.all fun ndim =>
    match ndim with
    | some n => decide (¬ n > 0)
    | none => false

/-- Embeds `elemwise_scalar_add`: Python `sum(inputs)`, a left fold of
`+` starting from `0`. -/
def elemwise_scalar_add (inputs : List ℚ) : ℚ :=
  inputs.foldl (· + ·) 0

/-- Embeds `elemwise_scalar_mul`: Python `reduce(operator.mul, inputs, 1)`,
a left fold of `*` starting from `1`. -/
def elemwise_scalar_mul (inputs : List ℚ) : ℚ :=
  inputs.foldl (· * ·) 1

/-- Embeds `elemwise_scalar_sub`: Python `x - y` on scalars. -/
def elemwise_scalar_sub (x y : ℚ) : ℚ := x - y

/-- Embeds `elemwise_scalar_intdiv`: Python `x // y` on integers, which
is floor division; division by zero raises `ZeroDivisionError`,
modelled as `none`. -/
def elemwise_scalar_intdiv (x y : ℤ) : Option ℤ :=
  if y = 0 then none else some (Int.fdiv x y)

/-- Embeds `elemwise_scalar_mod`: Python `x % y` on integers, whose
result carries the sign of the divisor (floor-convention remainder);
`y = 0` raises, modelled as `none`. -/
def elemwise_scalar_mod (x y : ℤ) : Option ℤ :=
  if y = 0 then none else some (Int.fmod x y)

/-- Embeds `jnp.add` on rank-0 arrays. -/
def jnp_add (x y : ℚ) : ℚ := x + y

/-- Embeds `jnp.subtract` on rank-0 arrays. -/
def jnp_subtract (x y : ℚ) : ℚ := x - y

/-- Embeds `jnp.multiply` on rank-0 arrays. -/
def jnp_multiply (x y : ℚ) : ℚ := x * y

/-- Embeds `jnp.floor_divide` on rank-0 integer arrays: floor division,
the same convention as NumPy.  The backend's behaviour at a zero
divisor is not specified by this repository; theorems about it carry a
`y ≠ 0` hypothesis. -/
def jnp_floor_divide (x y : ℤ) : ℤ := Int.fdiv x y

/-- Embeds `jnp.mod` on rank-0 integer arrays: remainder with the sign
of the divisor, the same convention as NumPy.  Zero divisor as in
`jnp_floor_divide`. -/
def jnp_mod (x y : ℤ) : ℤ := Int.fmod x y

/-- Embeds the call `jnp_func(*args)` for the binary `add` primitive: a
call with an operand count other than two raises, modelled as `none`. -/
def jnp_add_call : List ℚ → Option ℚ
  | [x, y] => some (jnp_add x y)
  | _ => none

/-- Embeds the call `jnp_func(*args)` for the binary `multiply`
primitive. -/
def jnp_multiply_call : List ℚ → Option ℚ
  | [x, y] => some (jnp_multiply x y)
  | _ => none

/-- Embeds `jnp.sum(jnp.stack(jnp.broadcast_arrays(*args), axis=0), axis=0)`
on rank-0 operands: stacking scalars yields a vector whose reduction
along the new leading axis is the list sum. -/
def jnp_sum_stacked (args : List ℚ) : ℚ := args.sum

/-- Embeds `jnp.prod(jnp.stack(jnp.broadcast_arrays(*args), axis=0), axis=0)`
on rank-0 operands. -/
def jnp_prod_stacked (args : List ℚ) : ℚ := args.prod

/-- Embeds the variadic-arity shim closure `elemwise` built inside
`jax_funcify_ScalarOp` for an op with `nfunc_variadic`: more operands
than the binary arity `op.nfunc_spec[1]` switches to stack-and-reduce,
otherwise the binary primitive is called directly. -/
def variadic_elemwise (arity : ℕ) (jnp_func : List ℚ → Option ℚ)
    (jax_variadic_func : List ℚ → ℚ) (args : List ℚ) : Option ℚ :=
  if args.length > arity then some (jax_variadic_func args) else jnp_func args

/-- The array-broadcasting dispatch path for `Add`
(`nfunc_spec = ("add", 2, 1)`, `nfunc_variadic = "sum"`). -/
def jax_funcify_Add_array : List ℚ → Option ℚ :=
  variadic_elemwise 2 jnp_add_call jnp_sum_stacked

/-- The array-broadcasting dispatch path for `Mul`
(`nfunc_spec = ("multiply", 2, 1)`, `nfunc_variadic = "prod"`). -/
def jax_funcify_Mul_array : List ℚ → Option ℚ :=
  variadic_elemwise 2 jnp_multiply_call jnp_prod_stacked

lemma foldl_add_eq_sum (l : List ℚ) : ∀ a : ℚ, l.foldl (· + ·) a = a + l.sum := by
  induction l with
  | nil => intro a; simp
  | cons x xs ih =>
      intro a
      simp only [List.foldl_cons, List.sum_cons, ih]
      ring

lemma foldl_mul_eq_prod (l : List ℚ) : ∀ a : ℚ, l.foldl (· * ·) a = a * l.prod := by
  induction l with
  | nil => intro a; simp
  | cons x xs ih =>
      intro a
      simp only [List.foldl_cons, List.prod_cons, ih]
      ring

/-- **C1.** For `Add`, `Sub`, `Mul`, `IntDiv` and `Mod` on numerically
equal rank-0 inputs, the scalar-specialized path (plain Python
arithmetic from `elemwise_scalar`) and the array-broadcasting path (the
`jnp` functions dispatched by `jax_funcify_ScalarOp`) produce identical
results (for `IntDiv`/`Mod` on a nonzero divisor, where the Python path
produces a result at all), and the scalar path is preferred exactly
when every input of the node has declared ndim `0`. -/
theorem scalar_and_array_dispatch_agree :
    (∀ args : List ℚ, 2 ≤ args.length →
      jax_funcify_Add_array args = some (elemwise_scalar_add args)) ∧
    (∀ args : List ℚ, 2 ≤ args.length →
      jax_funcify_Mul_array args = some (elemwise_scalar_mul args)) ∧
    (∀ x y : ℚ, elemwise_scalar_sub x y = jnp_subtract x y) ∧
    (∀ x y : ℤ, y ≠ 0 → elemwise_scalar_intdiv x y = some (jnp_floor_divide x y)) ∧
    (∀ x y : ℤ, y ≠ 0 → elemwise_scalar_mod x y = some (jnp_mod x y)) ∧
    (∀ ndims : List (Option ℕ),
      check_if_inputs_scalars ndims = true ↔ ∀ d ∈ ndims, d = some 0) := by
  refine ⟨?_, ?_, ?_, ?_, ?_, ?_⟩
  · intro args h
    by_cases hl : args.length > 2
    · simp only [jax_funcify_Add_array, variadic_elemwise, if_pos hl,
        jnp_sum_stacked, elemwise_scalar_add, foldl_add_eq_sum, zero_add]
    · have h2 : args.length = 2 := by omega
      match args, h2 with
      | [x, y], _ =>
          simp [jax_funcify_Add_array, variadic_elemwise, jnp_add_call,
            jnp_add, elemwise_scalar_add]
  · intro args h
    by_cases hl : args.length > 2
    · simp only [jax_funcify_Mul_array, variadic_elemwise, if_pos hl,
        jnp_prod_stacked, elemwise_scalar_mul, foldl_mul_eq_prod, one_mul]
    · have h2 : args.length = 2 := by omega
      match args, h2 with
      | [x, y], _ =>
          simp [jax_funcify_Mul_array, variadic_elemwise, jnp_multiply_call,
            jnp_multiply, elemwise_scalar_mul]
  · intro x y
    rfl
  · intro x y hy
    simp [elemwise_scalar_intdiv, jnp_floor_divide, hy]
  · intro x y hy
    simp [elemwise_scalar_mod, jnp_mod, hy]
  · intro ndims
    constructor
    · intro h d hd
      have := List.all_eq_true.mp h d hd
      match d with
      | some n =>
          simp only [decide_eq_true_eq] at this
          have : n = 0 := by omega
          simp [this]
      | none => simp at this
    · intro h
      apply List.all_eq_true.mpr
      intro d hd
      have := h d hd
      subst this
      simp

/-- Witness for C1 at concrete inputs. -/
theorem scalar_and_array_dispatch_agree_witness :
    jax_funcify_Add_array [1, 2, 3] = some 6 ∧
    jax_funcify_Mul_array [2, 3, 4] = some 24 ∧
    elemwise_scalar_intdiv 7 (-3) = some (-3) ∧
    elemwise_scalar_mod 7 (-3) = some (-2) := by
  have h := scalar_and_array_dispatch_agree
  refine ⟨?_, ?_, ?_, ?_⟩
  · rw [h.1 [1, 2, 3] (by decide)]
    norm_num [elemwise_scalar_add]
  · rw [h.2.1 [2, 3, 4] (by decide)]
    norm_num [elemwise_scalar_mul]
  · rw [h.2.2.2.1 7 (-3) (by decide)]; decide
  · rw [h.2.2.2.2.1 7 (-3) (by decide)]; decide

/-- Embeds `jnp.where` on rank-0 values: select `a` where the condition
holds, else `b`. -/
def jnp_where (c : Prop) [Decidable c] (a b : ℚ) : ℚ :=
  if c then a else b

/-- Embeds the closure `clip(x, min, max)` registered by
`jax_funcify_Clip`: the nested conditional
`jnp.where(x < min, min, jnp.where(x > max, max, x))`. -/
def clip (x min max : ℚ) : ℚ :=
  jnp_where (x < min) min (jnp_where (x > max) max x)

/-- Modelled from the spec: the backend's native clip
`min(max(x, lo), hi)`, which `jax_funcify_Clip` deliberately does not
use. -/
def native_clip (x lo hi : ℚ) : ℚ :=
  min (max x lo) hi

/-- **C2.** The JAX lowering of `Clip` computes the nested conditional
`where(x < lo, lo, where(x > hi, hi, x))`; in particular
`clip(3, 5, 2) = 5` (the first branch fires since `3 < 5`), which
differs from the native `min(max(3, 5), 2) = 2`. -/
theorem clip_nested_conditional :
    (∀ x lo hi : ℚ, clip x lo hi = if x < lo then lo else if x > hi then hi else x) ∧
    clip 3 5 2 = 5 ∧
    native_clip 3 5 2 = 2 ∧
    decide (clip 3 5 2 = native_clip 3 5 2) = false := by
  refine ⟨?_, by decide, by decide, by decide⟩
  intro x lo hi
  by_cases h1 : x < lo
  · simp [clip, jnp_where, h1]
  · by_cases h2 : x > hi
    · simp [clip, jnp_where, h1, h2]
    · simp [clip, jnp_where, h1, h2]

/-- **C9.** The scalar-specialized `Add` and `Mul` accept any number of
inputs: `Add` returns the sum of all inputs (`0` on the empty tuple),
and `Mul` is the left fold of `*` with initial value `1` (`1` on the
empty tuple, the input itself on a singleton). -/
theorem scalar_add_mul_variadic_identities :
    (∀ inputs : List ℚ, elemwise_scalar_add inputs = inputs.sum) ∧
    elemwise_scalar_add [] = 0 ∧
    (∀ inputs : List ℚ, elemwise_scalar_mul inputs = inputs.prod) ∧
    elemwise_scalar_mul [] = 1 ∧
    (∀ x : ℚ, elemwise_scalar_mul [x] = x) := by
  refine ⟨?_, rfl, ?_, rfl, ?_⟩
  · intro inputs
    simp [elemwise_scalar_add, foldl_add_eq_sum]
  · intro inputs
    simp [elemwise_scalar_mul, foldl_mul_eq_prod]
  · intro x
    simp [elemwise_scalar_mul]

/-- Left-to-right iterated application of a binary primitive to a tuple
of operands; undefined (the binary call would raise) on an empty tuple. -/
def iterated_binary (f : ℚ → ℚ → ℚ) : List ℚ → Option ℚ
  | [] => none
  | x :: xs => some (xs.foldl f x)

/-- **C5.** For the ops with a variadic counterpart (`Add` with `sum`,
`Mul` with `prod`), the `jax_funcify_ScalarOp` closure detects more
operands than the binary arity `nfunc_spec[1] = 2` and stack-reduces
them; that result equals the left-to-right iterated application of the
binary primitive, and calls with at most the declared arity invoke the
binary primitive directly. -/
theorem variadic_shim_iterated :
    (∀ args : List ℚ, args.length > 2 →
      jax_funcify_Add_array args = some (jnp_sum_stacked args) ∧
      jax_funcify_Add_array args = iterated_binary jnp_add args) ∧
    (∀ args : List ℚ, args.length > 2 →
      jax_funcify_Mul_array args = some (jnp_prod_stacked args) ∧
      jax_funcify_Mul_array args = iterated_binary jnp_multiply args) ∧
    (∀ x y : ℚ, jax_funcify_Add_array [x, y] = some (jnp_add x y)) ∧
    (∀ x y : ℚ, jax_funcify_Mul_array [x, y] = some (jnp_multiply x y)) := by
  refine ⟨?_, ?_, ?_, ?_⟩
  · intro args h
    refine ⟨by simp [jax_funcify_Add_array, variadic_elemwise, if_pos h], ?_⟩
    match args, h with
    | x :: xs, h =>
        simp only [jax_funcify_Add_array, variadic_elemwise, if_pos h,
          iterated_binary, jnp_sum_stacked]
        have hf : List.foldl jnp_add x xs = List.foldl (· + ·) x xs := rfl
        rw [hf, foldl_add_eq_sum, List.sum_cons]
  · intro args h
    refine ⟨by simp [jax_funcify_Mul_array, variadic_elemwise, if_pos h], ?_⟩
    match args, h with
    | x :: xs, h =>
        simp only [jax_funcify_Mul_array, variadic_elemwise, if_pos h,
          iterated_binary, jnp_prod_stacked]
        have hf : List.foldl jnp_multiply x xs = List.foldl (· * ·) x xs := rfl
        rw [hf, foldl_mul_eq_prod, List.prod_cons]
  · intro x y
    rfl
  · intro x y
    rfl

/-- Witness for C5 at concrete operand tuples. -/
theorem variadic_shim_iterated_witness :
    jax_funcify_Add_array [1, 2, 3, 4] = iterated_binary jnp_add [1, 2, 3, 4] ∧
    jax_funcify_Mul_array [1, 2, 3, 4] = iterated_binary jnp_multiply [1, 2, 3, 4] ∧
    jax_funcify_Add_array [5, 6] = some 11 := by
  have h := variadic_shim_iterated
  refine ⟨(h.1 [1, 2, 3, 4] (by decide)).2, (h.2.1 [1, 2, 3, 4] (by decide)).2, ?_⟩
  rw [h.2.2.1 5 6]
  norm_num [jnp_add]

/-- Information attached to a scalar `Op` needed by the TFP fallback:
its `name` attribute. -/
structure OpInfo where
  name : String

/-- Python exceptions reachable from `try_import_tfp_jax_op`. -/
inductive PyError where
  | moduleNotFound (missing_module : String)
  | notImplemented (msg : String)
deriving DecidableEq

/-- The TFP substrate module, modelled as its attribute lookup: each
attribute name resolves to a handle on the provider's function. -/
def TfpModule : Type := String → String

/-- Embeds `import tensorflow_probability.substrates.jax.math`: the
environment either provides the module or the import raises
`ModuleNotFoundError`. -/
def import_tfp_jax_math (installed : Option TfpModule) : Except PyError TfpModule :=
  match installed with
  | some m => Except.ok m
  | none => Except.error (PyError.moduleNotFound "tensorflow_probability")

/-- Embeds `try_import_tfp_jax_op(op, jax_op_name)`: the lazy import is
attempted, a `ModuleNotFoundError` is caught and replaced by
`NotImplementedError` with the documented message, and on success the
attribute named `jax_op_name` (defaulting to `op.name`) is returned. -/
def try_import_tfp_jax_op (installed : Option TfpModule) (op : OpInfo)
    (jax_op_name : Option String) : Except PyError String :=
  match import_tfp_jax_math installed with
  | Except.error (PyError.moduleNotFound _) =>
      Except.error (PyError.notImplemented
        ("No JAX implementation for Op " ++ op.name ++
          ". Implementation is available if TensorFlow Probability is installed"))
  | Except.error e => Except.error e
  | Except.ok m => Except.ok (m (jax_op_name.getD op.name))

/-- Embeds `jax_funcify_from_tfp`, the dispatch target registered for
`Erfcx` and `Erfcinv`: resolves the provider function named after the
op. -/
def jax_funcify_from_tfp (installed : Option TfpModule) (op : OpInfo) :
    Except PyError String :=
  try_import_tfp_jax_op installed op none

/-- Embeds the import step of `jax_funcify_Iv`: resolves the provider
function `bessel_ive`. -/
def jax_funcify_Iv_import (installed : Option TfpModule) (op : OpInfo) :
    Except PyError String :=
  try_import_tfp_jax_op installed op (some "bessel_ive")

/-- **C6.** When the optional provider module is absent, dispatch of
`Erfcx`, `Erfcinv` and `Iv` raises `NotImplementedError` whose message
names the operator and states that an implementation is available if
TensorFlow Probability is installed; the raw `ModuleNotFoundError` is
never propagated (the result is the `notImplemented` constructor, not
`moduleNotFound`). -/
theorem missing_tfp_not_implemented_error :
    (∀ (op : OpInfo) (jax_op_name : Option String),
      try_import_tfp_jax_op none op jax_op_name =
        Except.error (PyError.notImplemented
          ("No JAX implementation for Op " ++ op.name ++
            ". Implementation is available if TensorFlow Probability is installed"))) ∧
    jax_funcify_from_tfp none ⟨"erfcx"⟩ =
      Except.error (PyError.notImplemented
        "No JAX implementation for Op erfcx. Implementation is available if TensorFlow Probability is installed") ∧
    jax_funcify_from_tfp none ⟨"erfcinv"⟩ =
      Except.error (PyError.notImplemented
        "No JAX implementation for Op erfcinv. Implementation is available if TensorFlow Probability is installed") ∧
    jax_funcify_Iv_import none ⟨"iv"⟩ =
      Except.error (PyError.notImplemented
        "No JAX implementation for Op iv. Implementation is available if TensorFlow Probability is installed") := by
  refine ⟨fun op jax_op_name => rfl, rfl, rfl, rfl⟩

/-- Scalar expressions forming the internal sub-graph of a `Composite`
op: references to the composite's inputs and applications of inner
scalar ops. -/
inductive ScalarExpr where
  | inp (i : ℕ)
  | addE (a b : ScalarExpr)
  | mulE (a b : ScalarExpr)
  | negE (a : ScalarExpr)
deriving DecidableEq

/-- Recursive lowering of one sub-graph node: each inner node is
resolved through the same scalar semantics and composed over its
inputs' values, exactly as `jax_funcify` recurses over `op.fgraph`. -/
def ScalarExpr.eval (env : List ℚ) : ScalarExpr → ℚ
  | ScalarExpr.inp i => env.getD i 0
  | ScalarExpr.addE a b => ScalarExpr.eval env a + ScalarExpr.eval env b
  | ScalarExpr.mulE a b => ScalarExpr.eval env a * ScalarExpr.eval env b
  | ScalarExpr.negE a => -(ScalarExpr.eval env a)

/-- The `fgraph` of a `Composite` op: its output expressions over the
composite's inputs. -/
structure FGraph where
  outputs : List ScalarExpr
deriving DecidableEq

/-- Embeds `jax_funcify(op.fgraph)`: the callable produced by
recursively lowering the sub-graph, returning the list of output
values. -/
def jax_funcify_fgraph (fg : FGraph) (args : List ℚ) : List ℚ :=
  fg.outputs.map (ScalarExpr.eval args)

/-- Embeds the `composite` wrapper built by `jax_funcify_Composite`:
with exactly one output it returns `jax_impl(*args)[0]`, otherwise the
whole output tuple.  (`jnp.vectorize` is the identity on the rank-0
semantics modelled here.) -/
def jax_funcify_Composite (fg : FGraph) : List ℚ → ℚ ⊕ List ℚ :=
  let jax_impl := jax_funcify_fgraph fg
  if fg.outputs.length = 1 then
    fun args => Sum.inl ((jax_impl args).headI)
  else
    fun args => Sum.inr (jax_impl args)

/-- **C7.** The `Composite` wrapper evaluates the recursively lowered
sub-graph; with exactly one output it unwraps the sub-graph's result to
the single value (the head of a one-element output list), and with any
other number of outputs it returns the whole tuple of outputs. -/
theorem composite_wrapper_outputs :
    ∀ (fg : FGraph) (args : List ℚ),
      (fg.outputs.length = 1 →
        jax_funcify_Composite fg args = Sum.inl ((jax_funcify_fgraph fg args).headI) ∧
        (jax_funcify_fgraph fg args).length = 1) ∧
      (fg.outputs.length ≠ 1 →
        jax_funcify_Composite fg args = Sum.inr (jax_funcify_fgraph fg args)) := by
  intro fg args
  constructor
  · intro h
    constructor
    · simp [jax_funcify_Composite, if_pos h]
    · simp [jax_funcify_fgraph, h]
  · intro h
    simp [jax_funcify_Composite, if_neg h]

/-- Witness for C7 on a one-output and a two-output composite graph. -/
theorem composite_wrapper_outputs_witness :
    jax_funcify_Composite ⟨[ScalarExpr.addE (ScalarExpr.inp 0) (ScalarExpr.inp 1)]⟩ [2, 3] =
      Sum.inl 5 ∧
    jax_funcify_Composite
        ⟨[ScalarExpr.addE (ScalarExpr.inp 0) (ScalarExpr.inp 1),
          ScalarExpr.mulE (ScalarExpr.inp 0) (ScalarExpr.inp 1)]⟩ [2, 3] =
      Sum.inr [5, 6] := by
  constructor
  · have h := (composite_wrapper_outputs
      ⟨[ScalarExpr.addE (ScalarExpr.inp 0) (ScalarExpr.inp 1)]⟩ [2, 3]).1 rfl
    rw [h.1]
    norm_num [jax_funcify_fgraph, ScalarExpr.eval]
  · have h := (composite_wrapper_outputs
      ⟨[ScalarExpr.addE (ScalarExpr.inp 0) (ScalarExpr.inp 1),
        ScalarExpr.mulE (ScalarExpr.inp 0) (ScalarExpr.inp 1)]⟩ [2, 3]).2 (by decide)
    rw [h]
    norm_num [jax_funcify_fgraph, ScalarExpr.eval]

/-- Embeds `jnp.log1p` over the reals. -/
noncomputable def jnp_log1p (x : ℝ) : ℝ := Real.log (1 + x)

/-- Embeds `jnp.expm1` over the reals. -/
noncomputable def jnp_expm1 (x : ℝ) : ℝ := Real.exp x - 1

/-- Embeds `jnp.where` on rank-0 real values. -/
noncomputable def jnp_where_real (c : Prop) [Decidable c] (a b : ℝ) : ℝ :=
  if c then a else b

/-- Embeds the closure `softplus(x)` registered by
`jax_funcify_Softplus`: nested `jnp.where` with boundary constants
`-37.0`, `18.0` and `33.3`. -/
noncomputable def softplus (x : ℝ) : ℝ :=
  jnp_where_real (x < -37.0) (Real.exp x)
    (jnp_where_real (x < 18.0) (jnp_log1p (Real.exp x))
      (jnp_where_real (x < 33.3) (x + Real.exp (-x)) x))

/-- **C3.** The JAX lowering of `Softplus` is the piecewise definition
with boundary constants `-37.0`, `18.0`, `33.3`: `exp x` below `-37`,
`log1p (exp x)` on `[-37, 18)`, `x + exp (-x)` on `[18, 33.3)` and `x`
from `33.3` on; hence `softplus (-40) = exp (-40)`,
`softplus 40 = 40`, and `softplus 0` is computed as
`log1p (exp 0) = log 2`, each via the correct branch. -/
theorem softplus_piecewise :
    (∀ x : ℝ, x < -37.0 → softplus x = Real.exp x) ∧
    (∀ x : ℝ, -37.0 ≤ x → x < 18.0 → softplus x = jnp_log1p (Real.exp x)) ∧
    (∀ x : ℝ, 18.0 ≤ x → x < 33.3 → softplus x = x + Real.exp (-x)) ∧
    (∀ x : ℝ, 33.3 ≤ x → softplus x = x) ∧
    softplus (-40) = Real.exp (-40) ∧
    softplus 40 = 40 ∧
    softplus 0 = jnp_log1p (Real.exp 0) ∧
    jnp_log1p (Real.exp 0) = Real.log 2 := by
  have h1 : ∀ x : ℝ, x < -37.0 → softplus x = Real.exp x := by
    intro x h
    simp [softplus, jnp_where_real, h]
  have h2 : ∀ x : ℝ, -37.0 ≤ x → x < 18.0 → softplus x = jnp_log1p (Real.exp x) := by
    intro x ha hb
    simp [softplus, jnp_where_real, not_lt.mpr ha, hb]
  have h3 : ∀ x : ℝ, 18.0 ≤ x → x < 33.3 → softplus x = x + Real.exp (-x) := by
    intro x ha hb
    have ha2 : ¬ x < -37.0 := by norm_num at ha ⊢; linarith
    simp [softplus, jnp_where_real, ha2, not_lt.mpr ha, hb]
  have h4 : ∀ x : ℝ, 33.3 ≤ x → softplus x = x := by
    intro x ha
    have ha2 : ¬ x < -37.0 := by norm_num at ha ⊢; linarith
    have ha3 : ¬ x < 18.0 := by norm_num at ha ⊢; linarith
    simp [softplus, jnp_where_real, ha2, ha3, not_lt.mpr ha]
  refine ⟨h1, h2, h3, h4, h1 (-40) (by norm_num), h4 40 (by norm_num),
    h2 0 (by norm_num) (by norm_num), ?_⟩
  rw [jnp_log1p, Real.exp_zero]
  norm_num

/-- Witness for C3: the first branch at `-40`. -/
theorem softplus_piecewise_witness :
    softplus (-40) = Real.exp (-40) :=
  softplus_piecewise.1 (-40) (by norm_num)

/-- Embeds the closure `log1mexp(x)` registered by
`jax_funcify_Log1mexp`: branch at `log(0.5)` between `log1p(-exp x)`
and `log(-expm1 x)`. -/
noncomputable def log1mexp (x : ℝ) : ℝ :=
  jnp_where_real (x < Real.log 0.5) (jnp_log1p (-Real.exp x))
    (Real.log (-jnp_expm1 x))

/-- **C4.** The JAX lowering of `Log1mexp` branches at `log(0.5)`:
`log1p(-exp x)` below the threshold and `log(-expm1 x)` at or above it;
`log1mexp (-5)` goes through the first branch and `log1mexp (-0.1)`
through the second, and both branches agree exactly (over `ℝ`) with the
direct formula `log (1 - exp x)`. -/
theorem log1mexp_branch :
    (∀ x : ℝ, x < Real.log 0.5 → log1mexp x = jnp_log1p (-Real.exp x)) ∧
    (∀ x : ℝ, Real.log 0.5 ≤ x → log1mexp x = Real.log (-jnp_expm1 x)) ∧
    (∀ x : ℝ, jnp_log1p (-Real.exp x) = Real.log (1 - Real.exp x)) ∧
    (∀ x : ℝ, Real.log (-jnp_expm1 x) = Real.log (1 - Real.exp x)) ∧
    ((-5 : ℝ) < Real.log 0.5) ∧
    (Real.log 0.5 ≤ (-0.1 : ℝ)) ∧
    log1mexp (-5) = Real.log (1 - Real.exp (-5)) ∧
    log1mexp (-0.1) = Real.log (1 - Real.exp (-0.1)) := by
  have h05 : Real.log (0.5 : ℝ) = -Real.log 2 := by
    rw [show (0.5 : ℝ) = 2⁻¹ by norm_num, Real.log_inv]
  have hlt : (-5 : ℝ) < Real.log 0.5 := by
    have := Real.log_two_lt_d9
    rw [h05]
    linarith
  have hge : Real.log 0.5 ≤ (-0.1 : ℝ) := by
    have := Real.log_two_gt_d9
    rw [h05]
    linarith
  have ha : ∀ x : ℝ, x < Real.log 0.5 → log1mexp x = jnp_log1p (-Real.exp x) := by
    intro x h
    simp [log1mexp, jnp_where_real, h]
  have hb : ∀ x : ℝ, Real.log 0.5 ≤ x → log1mexp x = Real.log (-jnp_expm1 x) := by
    intro x h
    simp [log1mexp, jnp_where_real, not_lt.mpr h]
  have hc : ∀ x : ℝ, jnp_log1p (-Real.exp x) = Real.log (1 - Real.exp x) := by
    intro x
    rw [jnp_log1p]
    congr 1
  have hd : ∀ x : ℝ, Real.log (-jnp_expm1 x) = Real.log (1 - Real.exp x) := by
    intro x
    rw [jnp_expm1]
    congr 1
    ring
  exact ⟨ha, hb, hc, hd, hlt, hge, (ha _ hlt).trans (hc _), (hb _ hge).trans (hd _)⟩

/-- Witness for C4: the `log1p` branch at `-5`. -/
theorem log1mexp_branch_witness :
    log1mexp (-5) = jnp_log1p (-Real.exp (-5)) :=
  log1mexp_branch.1 (-5) log1mexp_branch.2.2.2.2.1

/-- Embeds the closure `iv(v, x)` registered by `jax_funcify_Iv`, with
the provider's exponentially-scaled Bessel function `ive` as a
parameter: `ive(v, x) / jnp.exp(-jnp.abs(jnp.real(x)))` (on real `x`,
`jnp.real` is the identity). -/
noncomputable def iv (ive : ℝ → ℝ → ℝ) (v x : ℝ) : ℝ :=
  ive v x / Real.exp (-|x|)

/-- **C8.** The JAX lowering of `Iv` divides the provider's
exponentially-scaled Bessel function by `exp (-|Re x|)`; consequently,
whenever the provider's `ive` is the scaled version
`true_iv v x * exp (-|x|)` of some function `true_iv`, the lowering
recovers `true_iv` exactly, undoing the scaling convention. -/
theorem iv_undoes_ive_scaling :
    (∀ (ive : ℝ → ℝ → ℝ) (v x : ℝ), iv ive v x = ive v x / Real.exp (-|x|)) ∧
    (∀ (ive true_iv : ℝ → ℝ → ℝ),
      (∀ v x : ℝ, ive v x = true_iv v x * Real.exp (-|x|)) →
      ∀ v x : ℝ, iv ive v x = true_iv v x) := by
  refine ⟨fun ive v x => rfl, ?_⟩
  intro ive true_iv h v x
  rw [iv, h, mul_div_assoc, div_self (Real.exp_ne_zero _), mul_one]

/-- Witness for C8: a provider returning exactly the scaling factor is
unscaled back to the constant `1`. -/
theorem iv_undoes_ive_scaling_witness :
    iv (fun _ x => Real.exp (-|x|)) 0 1 = 1 :=
  iv_undoes_ive_scaling.2 (fun _ x => Real.exp (-|x|)) (fun _ _ => 1)
    (fun _ _ => (one_mul _).symm) 0 1

/-- An n-dimensional array: a shape and the value stored at each
multi-index. -/
structure JArray where
  shape : List ℕ
  data : List ℕ → ℚ

/-- NumPy broadcasting of one dimension pair: equal sizes keep the
size, a size of `1` stretches to the other side, anything else is
incompatible. -/
def broadcast_dim (a b : ℕ) : Option ℕ :=
  if a = b then some a
  else if a = 1 then some b
  else if b = 1 then some a
  else none

/-- NumPy broadcasting of two shapes: align from the trailing axis,
padding the shorter shape with leading `1`s. -/
def broadcast_shapes (s1 s2 : List ℕ) : Option (List ℕ) :=
  let n := max s1.length s2.length
  let p1 := List.replicate (n - s1.length) 1 ++ s1
  let p2 := List.replicate (n - s2.length) 1 ++ s2
  (p1.zip p2).mapM fun p => broadcast_dim p.1 p.2

/-- Pull a multi-index of the broadcast result back to a source index:
drop the new leading axes and clamp stretched (size-`1`) axes to `0`. -/
def broadcast_index (src_shape idx : List ℕ) : List ℕ :=
  (src_shape.zip (idx.drop (idx.length - src_shape.length))).map
    fun p => if p.1 = 1 then 0 else p.2

/-- `jnp.broadcast_to`: reshape an array to a broadcast target shape,
reading each entry through `broadcast_index`. -/
def broadcast_to (a : JArray) (s : List ℕ) : JArray :=
  ⟨s, fun idx => a.data (broadcast_index a.shape idx)⟩

/-- Embeds `jnp.broadcast_arrays(x, y)`: both arrays broadcast to their
common shape, `none` when the shapes are incompatible. -/
def jnp_broadcast_arrays (x y : JArray) : Option (JArray × JArray) :=
  (broadcast_shapes x.shape y.shape).map fun s => (broadcast_to x s, broadcast_to y s)

/-- Embeds the closure `second(x, y)` registered by
`jax_funcify_Second`: broadcast both operands and return the broadcast
`y`, discarding the broadcast `x`. -/
def second (x y : JArray) : Option JArray :=
  (jnp_broadcast_arrays x y).map Prod.snd

/-- **C10.** `Second` returns `y` broadcast to the common broadcast
shape of `x` and `y`; hence two runs with the same `y` and two
different `x` values of the same shape give identical outputs: `x`'s
values never influence the result, only `x`'s shape does. -/
theorem second_depends_only_on_x_shape :
    (∀ x y : JArray,
      second x y = (broadcast_shapes x.shape y.shape).map (broadcast_to y)) ∧
    (∀ x x2 y : JArray, x.shape = x2.shape → second x y = second x2 y) := by
  have h1 : ∀ x y : JArray,
      second x y = (broadcast_shapes x.shape y.shape).map (broadcast_to y) := by
    intro x y
    cases h : broadcast_shapes x.shape y.shape <;>
      simp [second, jnp_broadcast_arrays, h]
  refine ⟨h1, ?_⟩
  intro x x2 y hsh
  rw [h1, h1, hsh]

/-- A rank-1 array of shape `[2]` holding zeros. -/
def sample_x_zeros : JArray := ⟨[2], fun _ => 0⟩

/-- A rank-1 array of shape `[2]` holding nines. -/
def sample_x_nines : JArray := ⟨[2], fun _ => 9⟩

/-- A rank-0 array holding `7`. -/
def sample_y_scalar : JArray := ⟨[], fun _ => 7⟩

/-- Witness for C10: swapping the values (not the shape) of `x` leaves
the output of `Second` unchanged. -/
theorem second_depends_only_on_x_shape_witness :
    second sample_x_zeros sample_y_scalar = second sample_x_nines sample_y_scalar :=
  second_depends_only_on_x_shape.2 sample_x_zeros sample_x_nines sample_y_scalar rfl
